import Mathlib

/-!
Shallow embedding of the booking-detail page of the liloapp repository
(`BookingDetailPage` in the source): the availability resolver
(`isSlotAvailable`), the slot option generator (`generateTimeOptions`),
the contiguous selection toggler (`handleHourSelection`), the initial
selection from URL parameters, the price computation, and the
payment-success handler (`handlePaymentSuccess`).

Conventions of the embedding:
* Hour strings `"HH:00"` (two-digit, zero-padded) are represented by their
  hour numbers: JavaScript `parseInt` on such a string yields the hour, and
  lexicographic `.sort()` on such strings coincides with numeric order.
* JavaScript numbers are represented by `ℚ` (exact arithmetic; the decimal
  literals `0.30` and `0.11` of the source are taken exactly).
* A `Date` value is observed by the code only through `getDay()` (weekday)
  and through `isSameDay` (calendar-day identity), so it is modelled by
  those two observations.
* `Array.from ({length: n}, (_, i) => ...)` clamps a negative length to
  zero, which matches truncated `Nat` subtraction.
* Nullable data (`bookingDetails`, `activeSchedule`, a missing weekday
  entry, a missing `slots` field) is modelled with `Option`.
-/

namespace Liloapp

/-- A calendar date as the page observes it: `getDay()` (weekday index,
0 = Sunday .. 6 = Saturday) and an identity deciding `isSameDay`. -/
structure SimpleDate where
  weekday : Nat
  dayId : Int
deriving DecidableEq

/-- Source interface `TimeSlot {start, end}`: hour-granularity strings,
represented by their parsed hour numbers (`parseInt(slot.start.split(':')[0])`).
The field `end` of the source is written `endH` (`end` is a Lean keyword). -/
structure TimeSlot where
  start : Nat
  endH : Nat
deriving DecidableEq

/-- Source interface `DaySchedule { slots: TimeSlot[] }`; the parsed JSON may
lack the `slots` field (the code checks `!daySchedule.slots`), hence `Option`. -/
structure DaySchedule where
  slots : Option (List TimeSlot)
deriving DecidableEq

/-- Source interface `ActiveSchedule { [key: number]: DaySchedule }`:
an object keyed by weekday index, modelled as an association list. -/
abbrev ActiveSchedule := List (Nat × DaySchedule)

/-- A row of the `bookings` table as `isSlotAvailable` uses it: the calendar
day of `start_time`, `new Date(start_time).getHours()` and
`new Date(end_time).getHours()`. Only rows with status `accepted` or
`pending` are fetched, so every member of `Env.bookings` is active. -/
structure Booking where
  startDayId : Int
  startHour : Nat
  endHour : Nat
deriving DecidableEq

/-- The `BookingDetails` read from the URL parameters, restricted to the
fields the embedded logic uses: `date`, `startTime`/`endTime` (represented
by their hour numbers) and `price`. -/
structure BookingDetails where
  date : SimpleDate
  startTime : Nat
  endTime : Nat
  price : ℚ
deriving DecidableEq

/-- The component state the availability logic closes over:
`bookingDetails`, `activeSchedule` (both nullable) and the fetched active
`bookings` (initialised to `[]`). -/
structure Env where
  bookingDetails : Option BookingDetails
  activeSchedule : Option ActiveSchedule
  bookings : List Booking

/-- The list `[start, start+1, ..., start+len-1]`, the embedding of the
source idiom `Array.from({length: len}, (_, i) => start + i)`. -/
def hourRange (start len : Nat) : List Nat :=
  (List.range len).map (fun i => start + i)

/-- Availability resolver, source lines 154–178:
`isSlotAvailable(date, hour)`. Returns `false` when `bookingDetails` or
`activeSchedule` is null, when the weekday has no `DaySchedule`, or when its
`slots` field is missing; otherwise the hour must lie in some schedule slot
`[start, end)` and must not be blocked by an active booking on the same
calendar day (an hour in `[bookingStart, bookingEnd)`, or equal to the
booking end hour when end hour > start hour). Total by construction. -/
def isSlotAvailable (env : Env) (date : SimpleDate) (hour : Nat) : Bool :=
  match env.bookingDetails, env.activeSchedule with
  | some _, some activeSchedule =>
    match List.lookup date.weekday activeSchedule with
    | none => false
    | some daySchedule =>
      match daySchedule.slots with
      | none => false
      | some slots =>
        let isInSchedule := slots.any fun slot =>
          decide (slot.start ≤ hour) && decide (hour < slot.endH)
        let bookingExists := env.bookings.any fun booking =>
          decide (booking.startDayId = date.dayId) &&
            ((decide (booking.startHour ≤ hour) && decide (hour < booking.endHour)) ||
              (decide (hour = booking.endHour) &&
                decide (booking.startHour < booking.endHour)))
        isInSchedule && !bookingExists
  | _, _ => false

/-- The schedule-template half of `isSlotAvailable` (the `isInSchedule`
local of the source), exposed for analysis. -/
def isInScheduleTemplate (env : Env) (date : SimpleDate) (hour : Nat) : Bool :=
  match env.bookingDetails, env.activeSchedule with
  | some _, some activeSchedule =>
    match List.lookup date.weekday activeSchedule with
    | none => false
    | some daySchedule =>
      match daySchedule.slots with
      | none => false
      | some slots =>
        slots.any fun slot => decide (slot.start ≤ hour) && decide (hour < slot.endH)
  | _, _ => false

/-- The booking-blocking half of `isSlotAvailable` (the `bookingExists`
local of the source), exposed for analysis. -/
def blockedByBooking (env : Env) (date : SimpleDate) (hour : Nat) : Bool :=
  env.bookings.any fun booking =>
    decide (booking.startDayId = date.dayId) &&
      ((decide (booking.startHour ≤ hour) && decide (hour < booking.endHour)) ||
        (decide (hour = booking.endHour) &&
          decide (booking.startHour < booking.endHour)))

/-- Initial `selectedHours`, source lines 86–95: every whole hour of
`[startTime, endTime)`, straight from the URL parameters, with no
availability filtering. -/
def initSelectedHours (startTime endTime : Nat) : List Nat :=
  hourRange startTime (endTime - startTime)

/-- Slot option generator, source lines 180–188: every whole hour of
`[startTime, endTime)` of the booking details, filtered through
`isSlotAvailable` on the booking date; `[]` when `bookingDetails` is null. -/
def generateTimeOptions (env : Env) : List Nat :=
  match env.bookingDetails with
  | none => []
  | some bd =>
    let options := hourRange bd.startTime (bd.endTime - bd.startTime)
    options.filter fun hour => isSlotAvailable env bd.date hour

/-- Selection toggler, source lines 190–206: `handleHourSelection(hour)` on
state `prevSelected`. The `date` argument stands for
`new Date(bookingDetails!.date)` of the source. If `hour` is selected it is
removed; otherwise it is appended, the list is sorted (JavaScript `.sort()`
on zero-padded hour strings = numeric order), and when the result has more
than one element the inclusive span from its first to its last element is
rebuilt and filtered through `isSlotAvailable`. -/
def handleHourSelection (env : Env) (date : SimpleDate) (hour : Nat)
    (prevSelected : List Nat) : List Nat :=
  if hour ∈ prevSelected then
    prevSelected.filter fun h => h != hour
  else
    let newSelected := (prevSelected ++ [hour]).insertionSort (· ≤ ·)
    if 1 < newSelected.length then
      let start := newSelected.headI
      let endT := newSelected.getLastI
      (hourRange start (endT - start + 1)).filter fun h => isSlotAvailable env date h
    else
      newSelected

/-- The available hours of the inclusive span `[a, b]`, in ascending order:
the shape of every multi-element result of an add-toggle. -/
def availRange (env : Env) (date : SimpleDate) (a b : Nat) : List Nat :=
  (hourRange a (b - a + 1)).filter fun h => isSlotAvailable env date h

/-- The add-toggle as the spec describes it (§4.3): insert the hour, sort
ascending, re-derive the full inclusive span between the minimum and maximum
selected hour, and keep exactly the hours of the span that the availability
resolver reports available. Written from the spec text, to be compared with
`handleHourSelection`. -/
def spanFilterToggle (env : Env) (date : SimpleDate) (hour : Nat)
    (selection : List Nat) : List Nat :=
  let newSelected := (selection ++ [hour]).insertionSort (· ≤ ·)
  (hourRange newSelected.headI (newSelected.getLastI - newSelected.headI + 1)).filter
    fun h => isSlotAvailable env date h

/-- Selection states reachable on the page: the initial selection built from
the URL `startTime`/`endTime`, closed under toggles. -/
inductive Reachable (env : Env) (date : SimpleDate) : List Nat → Prop
  | init (startTime endTime : Nat) :
      Reachable env date (initSelectedHours startTime endTime)
  | toggle (hour : Nat) {sel : List Nat} :
      Reachable env date sel →
      Reachable env date (handleHourSelection env date hour sel)

/-- A list of hours is a contiguous run of consecutive hours. -/
def Contiguous (l : List Nat) : Prop :=
  l.Chain' fun a b => b = a + 1

/-- Price line, source line 378: `subtotal = price * selectedHours.length`. -/
def subtotal (price : ℚ) (hourCount : Nat) : ℚ :=
  price * hourCount

/-- Price line, source line 379: `platformFee = subtotal * 0.30`. -/
def platformFee (price : ℚ) (hourCount : Nat) : ℚ :=
  subtotal price hourCount * 0.30

/-- Price line, source line 380. -/
def subtotalWithPlatformFee (price : ℚ) (hourCount : Nat) : ℚ :=
  subtotal price hourCount + platformFee price hourCount

/-- Price line, source line 381: `tax = subtotalWithPlatformFee * 0.11`. -/
def tax (price : ℚ) (hourCount : Nat) : ℚ :=
  subtotalWithPlatformFee price hourCount * 0.11

/-- JavaScript `Math.round`: round half up. -/
def mathRound (q : ℚ) : ℤ :=
  ⌊q + 1 / 2⌋

/-- Price line, source line 382: `total = Math.round(subtotalWithPlatformFee + tax)`. -/
def total (price : ℚ) (hourCount : Nat) : ℤ :=
  mathRound (subtotalWithPlatformFee price hourCount + tax price hourCount)

/-- JavaScript `String.prototype.split('-')` over the character list:
accumulates the current segment (reversed) and cuts at each dash. -/
def splitOnDashAux : List Char → List Char → List (List Char)
  | [], acc => [acc.reverse]
  | c :: cs, acc =>
    if c = '-' then acc.reverse :: splitOnDashAux cs []
    else splitOnDashAux cs (c :: acc)

/-- Numeric value of a list of decimal digit characters. -/
def digitsVal (cs : List Char) : Nat :=
  cs.foldl (fun a c => a * 10 + (c.toNat - 48)) 0

/-- JavaScript `parseInt(s, 10)`: skip leading whitespace, read an optional
sign and then the maximal run of leading decimal digits, ignoring the rest;
`none` models `NaN` (no digits). -/
def parseIntJS (s : List Char) : Option Int :=
  let cs := s.dropWhile fun c => c.isWhitespace
  match cs with
  | '-' :: rest =>
    let ds := rest.takeWhile fun c => c.isDigit
    if ds = [] then none else some (-(digitsVal ds : Int))
  | '+' :: rest =>
    let ds := rest.takeWhile fun c => c.isDigit
    if ds = [] then none else some (digitsVal ds : Int)
  | _ =>
    let ds := cs.takeWhile fun c => c.isDigit
    if ds = [] then none else some (digitsVal ds : Int)

/-- Source lines 271–276: `result.order_id.split('-')`, take index 1 and
`parseInt(·, 10)`; `none` when the segment is missing (`undefined` parses to
`NaN`) or parses to `NaN`. -/
def parseBookingId (orderId : String) : Option Int :=
  ((splitOnDashAux orderId.data []).get? 1).bind fun seg => parseIntJS seg

/-- A row of the `bookings` table as `handlePaymentSuccess` uses it
(joined with its streamer). -/
structure BookingRow where
  id : Int
  status : String
  streamerId : Int
  streamerUserId : Int
  streamerFirstName : String
  streamerLastName : String
  clientId : Int
  clientFirstName : String
  clientLastName : String
deriving DecidableEq

/-- A `notifications` row as inserted by `handlePaymentSuccess`. -/
structure Notif where
  userId : Int
  streamerId : Option Int
  message : String
  type : String
  bookingId : Int
  isRead : Bool
deriving DecidableEq

/-- The store state `handlePaymentSuccess` reads and writes. -/
structure Db where
  bookings : List BookingRow
  notifications : List Notif
deriving DecidableEq

/-- What the user is shown at the end of `handlePaymentSuccess`: the success
notice of line 334, or the contact-support notice of the `catch` block
(line 339). -/
inductive PaymentOutcome
  | success
  | contactSupport
deriving DecidableEq

/-- Payment-success handler, source lines 266–341, as a function of the
gateway `order_id` and the store state. Parsing failure (`isNaN(bookingId)`)
throws before any read or write, a missing booking row throws after the read;
both are caught by the `catch` block, which surfaces the contact-support
notice. On the success path two `confirmation` notifications are inserted
and the booking status is set to `pending`. -/
def handlePaymentSuccess (orderId : String) (db : Db) : Db × PaymentOutcome :=
  match parseBookingId orderId with
  | none => (db, PaymentOutcome.contactSupport)
  | some bookingId =>
    match db.bookings.find? fun b => b.id == bookingId with
    | none => (db, PaymentOutcome.contactSupport)
    | some booking =>
      let streamerNotif : Notif :=
        { userId := booking.streamerUserId
          streamerId := some booking.streamerId
          message := "New booking request from " ++ booking.clientFirstName ++
            " " ++ booking.clientLastName ++ ". Payment confirmed."
          type := "confirmation"
          bookingId := bookingId
          isRead := false }
      let clientNotif : Notif :=
        { userId := booking.clientId
          streamerId := none
          message := "Payment confirmed for booking with " ++
            booking.streamerFirstName ++ " " ++ booking.streamerLastName ++
            ". Waiting for acceptance."
          type := "confirmation"
          bookingId := bookingId
          isRead := false }
      let db1 : Db :=
        { bookings := db.bookings.map fun b =>
            if b.id == bookingId then { b with status := "pending" } else b
          notifications := db.notifications ++ [streamerNotif, clientNotif] }
      (db1, PaymentOutcome.success)

/-! ### Concrete environments used in scenarios, witnesses and counterexamples -/

/-- A Monday (weekday 1), calendar-day identity 0. -/
def monday : SimpleDate :=
  ⟨1, 0⟩

/-- Booking details of the scenarios: requested window 10:00–13:00 on
`monday`, base price 100000. -/
def bdTest : BookingDetails :=
  ⟨monday, 10, 13, 100000⟩

/-- Scenario A environment: Monday slot 09:00–17:00, no bookings. -/
def envA : Env :=
  ⟨some bdTest, some [(1, ⟨some [⟨9, 17⟩]⟩)], []⟩

/-- Scenario D environment: Monday slots 10:00–11:00 and 12:00–13:00, so
hours 10 and 12 are available while hour 11 is not; no bookings. -/
def envD : Env :=
  ⟨some bdTest, some [(1, ⟨some [⟨10, 11⟩, ⟨12, 13⟩]⟩)], []⟩

/-- Environment with Monday slot 10:00–13:00 (hours 10, 11, 12 available,
hour 13 not); no bookings. -/
def envWide : Env :=
  ⟨some bdTest, some [(1, ⟨some [⟨10, 13⟩]⟩)], []⟩

/-- Environment with Monday slot 09:00–17:00 and one active booking
11:00–12:00 on `monday`. -/
def envB : Env :=
  ⟨some bdTest, some [(1, ⟨some [⟨9, 17⟩]⟩)], [⟨0, 11, 12⟩]⟩

/-- Environment whose schedule has no entry for any weekday, with one active
zero-length booking 11:00–11:00 on `monday`. -/
def envZ : Env :=
  ⟨some bdTest, some [], [⟨0, 11, 11⟩]⟩

/-- A store with a single booking row (id 7, status `accepted`) and no
notifications. -/
def dbTest : Db :=
  ⟨[⟨7, "accepted", 1, 2, "Ann", "Lee", 3, "Bob", "Ray"⟩], []⟩

/-! ### Auxiliary lemmas -/

/-- Membership in `hourRange`. -/
lemma mem_hourRange {s n x : Nat} : x ∈ hourRange s n ↔ s ≤ x ∧ x < s + n := by
  simp only [hourRange, List.mem_map, List.mem_range]
  constructor
  · rintro ⟨i, hi, rfl⟩; omega
  · rintro ⟨h1, h2⟩; exact ⟨x - s, by omega, by omega⟩

/-- An `hourRange` is strictly ascending. -/
lemma pairwise_lt_hourRange (s n : Nat) : (hourRange s n).Pairwise (· < ·) :=
  (List.pairwise_lt_range n).map (fun i => s + i)
    (fun a b h => by show s + a < s + b; omega)

/-- `availRange` is strictly ascending. -/
lemma pairwise_lt_availRange (env : Env) (date : SimpleDate) (a b : Nat) :
    (availRange env date a b).Pairwise (· < ·) :=
  (pairwise_lt_hourRange a (b - a + 1)).filter _

/-- Toggling a selected hour removes it (the removal branch of the source). -/
lemma handleHourSelection_of_mem (env : Env) (date : SimpleDate) (hour : Nat)
    {sel : List Nat} (h : hour ∈ sel) :
    handleHourSelection env date hour sel = sel.filter fun x => x != hour := by
  simp only [handleHourSelection, if_pos h]

/-- Toggling a fresh hour on a nonempty selection lands in the
span-rebuilding branch of the source. -/
lemma handleHourSelection_of_not_mem (env : Env) (date : SimpleDate) (hour : Nat)
    {sel : List Nat} (h : hour ∉ sel) (hne : sel ≠ []) :
    handleHourSelection env date hour sel =
      (hourRange ((sel ++ [hour]).insertionSort (· ≤ ·)).headI
          (((sel ++ [hour]).insertionSort (· ≤ ·)).getLastI -
            ((sel ++ [hour]).insertionSort (· ≤ ·)).headI + 1)).filter
        fun x => isSlotAvailable env date x := by
  have hlen : 1 < ((sel ++ [hour]).insertionSort (· ≤ ·)).length := by
    rw [List.length_insertionSort, List.length_append, List.length_singleton]
    have := List.length_pos.mpr hne
    omega
  simp only [handleHourSelection, if_neg h, if_pos hlen]

/-- Removing an hour of a sorted duplicate-free list and sorting it back in
restores the list. -/
lemma insertionSort_filter_append {sel : List Nat} {hour : Nat}
    (hsorted : sel.Pairwise (· ≤ ·)) (hnd : sel.Nodup) (hmem : hour ∈ sel) :
    ((sel.filter fun h => h != hour) ++ [hour]).insertionSort (· ≤ ·) = sel := by
  apply List.eq_of_perm_of_sorted ?_ (List.sorted_insertionSort _ _) hsorted
  refine (List.perm_insertionSort _ _).trans
    ((List.perm_append_singleton _ _).trans ?_)
  rw [← List.Nodup.erase_eq_filter hnd hour]
  exact (List.perm_cons_erase hmem).symm

/-- `isSlotAvailable` is the conjunction of its schedule-template half and
the negation of its booking-blocking half. -/
lemma isSlotAvailable_decompose (env : Env) (date : SimpleDate) (hour : Nat) :
    isSlotAvailable env date hour =
      (isInScheduleTemplate env date hour && !blockedByBooking env date hour) := by
  unfold isSlotAvailable isInScheduleTemplate blockedByBooking
  rcases hbd : env.bookingDetails with _ | bd <;>
    rcases has : env.activeSchedule with _ | sched
  · simp
  · simp
  · simp
  · rcases hlk : List.lookup date.weekday sched with _ | ds
    · simp [hlk]
    · rcases hsl : ds.slots with _ | slots <;> simp [hlk, hsl]

/-- `generateTimeOptions` on a present `bookingDetails`. -/
lemma generateTimeOptions_eq (env : Env) (bd : BookingDetails)
    (h : env.bookingDetails = some bd) :
    generateTimeOptions env =
      (hourRange bd.startTime (bd.endTime - bd.startTime)).filter
        fun hour => isSlotAvailable env bd.date hour := by
  simp only [generateTimeOptions, h]

/-! ### The claims -/

/-- Claim C1, as amended: for every NONEMPTY current selection and every newly
added hour not in it, toggling yields exactly the spec's description —
insert the hour, sort ascending, re-derive the full inclusive span between
the minimum and maximum, and keep exactly the hours of the span the
availability resolver reports available (`spanFilterToggle`); in particular
toggling 12:00 on selection `[10:00]` with 11:00 unavailable and 12:00
available yields `[10:00, 12:00]` — the gap is preserved. (On an empty
selection the source skips the filter; see the counterexample.) -/
theorem toggle_matches_span_filter :
    (∀ (env : Env) (date : SimpleDate) (hour : Nat) (sel : List Nat),
      sel ≠ [] → hour ∉ sel →
      handleHourSelection env date hour sel = spanFilterToggle env date hour sel) ∧
    handleHourSelection envD monday 12 [10] = [10, 12] := by
  refine ⟨fun env date hour sel hne hnot => ?_, by decide⟩
  rw [handleHourSelection_of_not_mem env date hour hnot hne]
  rfl

/-- Claim C1, counterexample to the unrestricted statement: toggling the
unavailable hour 11:00 onto the EMPTY selection yields `[11:00]` in the
source (no filtering in the single-element branch), while the claimed
insert-sort-span-filter computation yields `[]`. -/
theorem toggle_matches_span_filter_cex :
    handleHourSelection envD monday 11 [] ≠ spanFilterToggle envD monday 11 [] := by
  decide

/-- Claim C1, witness: the amended theorem applied at scenario D's input. -/
theorem toggle_matches_span_filter_witness :
    handleHourSelection envD monday 12 [10] = spanFilterToggle envD monday 12 [10] :=
  toggle_matches_span_filter.1 envD monday 12 [10] (by decide) (by decide)

/-- Claim C2, as amended: an add-toggle on a nonempty selection recomputes
the inclusive span and keeps exactly its available hours, so its result is
strictly ascending and every member is individually available — but it need
not be contiguous; a removal toggle merely drops the hour without
recomputing the span. -/
theorem selection_toggle_invariant :
    (∀ (env : Env) (date : SimpleDate) (hour : Nat) (sel : List Nat),
      hour ∉ sel → sel ≠ [] →
      (handleHourSelection env date hour sel).Sorted (· < ·) ∧
      ∀ x ∈ handleHourSelection env date hour sel, isSlotAvailable env date x = true) ∧
    (∀ (env : Env) (date : SimpleDate) (hour : Nat) (sel : List Nat),
      hour ∈ sel →
      handleHourSelection env date hour sel = sel.filter fun h => h != hour) := by
  refine ⟨fun env date hour sel hnot hne => ?_,
    fun env date hour sel h => handleHourSelection_of_mem env date hour h⟩
  rw [handleHourSelection_of_not_mem env date hour hnot hne]
  exact ⟨(pairwise_lt_hourRange _ _).filter _, fun x hx => (List.mem_filter.mp hx).2⟩

/-- Claim C2, counterexample to the claimed invariant: the selection
`[10:00, 12:00]` is reachable (initial selection `[10:00]` from the URL
window 10:00–11:00, then toggle 12:00 with 11:00 unavailable), has more
than one element, and is NOT a contiguous run of consecutive hours. -/
theorem selection_toggle_invariant_cex :
    Reachable envD monday [10, 12] ∧ 1 < ([10, 12] : List Nat).length ∧
    ¬ Contiguous [10, 12] := by
  refine ⟨?_, by decide, ?_⟩
  · have h2 : handleHourSelection envD monday 12 (initSelectedHours 10 11) = [10, 12] := by
      decide
    rw [← h2]
    exact Reachable.toggle 12 (Reachable.init 10 11)
  · simp [Contiguous]

/-- Claim C2, witness: the amended theorem applied to the add-toggle of
12:00 onto `[10:00]` in the scenario D environment. -/
theorem selection_toggle_invariant_witness :
    (handleHourSelection envD monday 12 [10]).Sorted (· < ·) ∧
    ∀ x ∈ handleHourSelection envD monday 12 [10],
      isSlotAvailable envD monday x = true :=
  selection_toggle_invariant.1 envD monday 12 [10] (by decide) (by decide)

/-- Claim C3, as amended: if an active booking covers `[s, e)` on the date,
then `isSlotAvailable(date, h) = false` for every `h ∈ [s, e)`; and when that
booking is the only one and hour `e` is available by the weekly-schedule
template, `isSlotAvailable(date, e) = false` exactly when `e > s` (the
booking blocks its own end hour exactly for strictly positive length). -/
theorem booking_blocks_hours (env : Env) (date : SimpleDate) (b : Booking)
    (hmem : b ∈ env.bookings) (hday : b.startDayId = date.dayId) :
    (∀ h, b.startHour ≤ h → h < b.endHour → isSlotAvailable env date h = false) ∧
    (env.bookings = [b] → isInScheduleTemplate env date b.endHour = true →
      (isSlotAvailable env date b.endHour = false ↔ b.startHour < b.endHour)) := by
  constructor
  · intro h hs1 hs2
    have hblock : blockedByBooking env date h = true := by
      unfold blockedByBooking
      rw [List.any_eq_true]
      exact ⟨b, hmem, by simp [hday, hs1, hs2]⟩
    rw [isSlotAvailable_decompose, hblock]
    simp
  · intro hsingle htemp
    have hblock : blockedByBooking env date b.endHour =
        decide (b.startHour < b.endHour) := by
      unfold blockedByBooking
      rw [hsingle]
      simp [hday]
    rw [isSlotAvailable_decompose, htemp, hblock]
    by_cases hlt : b.startHour < b.endHour <;> simp [hlt]

/-- Claim C3, counterexample to the literal "exactly when": with a
zero-length active booking 11:00–11:00 on the date and an hour 11:00 that
is outside the schedule template, `isSlotAvailable(date, 11) = false` holds
although `e > s` fails, refuting the claimed equivalence as stated. -/
theorem booking_blocks_hours_cex :
    (⟨0, 11, 11⟩ : Booking) ∈ envZ.bookings ∧
    (⟨0, 11, 11⟩ : Booking).startDayId = monday.dayId ∧
    ¬ (isSlotAvailable envZ monday 11 = false ↔ 11 > 11) := by
  decide

/-- Claim C3, witness: the amended theorem at the booking 11:00–12:00 of
`envB`, blocking hour 11 and blocking the end hour 12 since 11 < 12. -/
theorem booking_blocks_hours_witness :
    isSlotAvailable envB monday 11 = false ∧
    (isSlotAvailable envB monday 12 = false ↔ (11 : Nat) < 12) :=
  ⟨(booking_blocks_hours envB monday ⟨0, 11, 12⟩ (by decide) rfl).1 11
      (by decide) (by decide),
   (booking_blocks_hours envB monday ⟨0, 11, 12⟩ (by decide) rfl).2 rfl (by decide)⟩

/-- Claim C4, as amended: toggling the same hour twice restores the
selection when the toggled hour is currently selected and the selection is
exactly the available hours of its own inclusive span (as every
multi-element result of an add-toggle is), and likewise from the empty
selection; in general double-toggling need not restore the selection. -/
theorem toggle_twice_restores :
    (∀ (env : Env) (date : SimpleDate) (hour : Nat) (sel : List Nat),
      sel = availRange env date sel.headI sel.getLastI → hour ∈ sel →
      handleHourSelection env date hour (handleHourSelection env date hour sel) = sel) ∧
    (∀ (env : Env) (date : SimpleDate) (hour : Nat),
      handleHourSelection env date hour (handleHourSelection env date hour []) = []) := by
  constructor
  · intro env date hour sel hspan hmem
    have hpw : sel.Pairwise (· < ·) := by
      rw [hspan]; exact pairwise_lt_availRange env date _ _
    have hsorted : sel.Pairwise (· ≤ ·) := hpw.imp (fun h => le_of_lt h)
    have hnd : sel.Nodup := hpw.imp (fun h => ne_of_lt h)
    rw [handleHourSelection_of_mem env date hour hmem]
    by_cases hone : (sel.filter fun x => x != hour) = []
    · have hsel : sel = [hour] := by
        cases sel with
        | nil => cases hmem
        | cons a t =>
          have ha : a = hour := by
            have := List.filter_eq_nil_iff.mp hone a (List.mem_cons_self a t)
            simpa using this
          subst ha
          have ht : t = [] := by
            by_contra htne
            obtain ⟨y, hy⟩ := List.exists_mem_of_ne_nil t htne
            have hya : y = a := by
              have := List.filter_eq_nil_iff.mp hone y (List.mem_cons_of_mem a hy)
              simpa using this
            exact (List.nodup_cons.mp hnd).1 (hya ▸ hy)
          rw [ht]
      rw [hone, hsel]
      simp [handleHourSelection, List.insertionSort, List.orderedInsert]
    · rw [handleHourSelection_of_not_mem env date hour (by simp) hone]
      rw [insertionSort_filter_append hsorted hnd hmem]
      exact hspan.symm
  · intro env date hour
    have h1 : handleHourSelection env date hour [] = [hour] := by
      simp [handleHourSelection, List.insertionSort, List.orderedInsert]
    rw [h1, handleHourSelection_of_mem env date hour (List.mem_singleton_self hour)]
    simp

/-- Claim C4, counterexample to unrestricted idempotence: in an environment
where 10:00–12:00 are available and 13:00 is not, the reachable selection
`[10:00, 12:00]` is not restored by toggling 13:00 twice — the double
toggle fills the gap, yielding `[10:00, 11:00, 12:00]`. -/
theorem toggle_twice_restores_cex :
    Reachable envWide monday [10, 12] ∧
    handleHourSelection envWide monday 13
        (handleHourSelection envWide monday 13 [10, 12]) ≠ [10, 12] := by
  constructor
  · have h2 : handleHourSelection envWide monday 11 (initSelectedHours 10 13) = [10, 12] := by
      decide
    rw [← h2]
    exact Reachable.toggle 11 (Reachable.init 10 13)
  · decide

/-- Claim C4, witness: in scenario D's environment the selection
`[10:00, 12:00]` equals the available hours of its own span, so toggling
12:00 twice restores it. -/
theorem toggle_twice_restores_witness :
    handleHourSelection envD monday 12
      (handleHourSelection envD monday 12 [10, 12]) = [10, 12] :=
  toggle_twice_restores.1 envD monday 12 [10, 12] (by decide) (by decide)

/-- Claim C5: the price breakdown satisfies
`subtotal = basePrice * hourCount`, `platformFee = subtotal * 0.30`,
`tax = (subtotal + platformFee) * 0.11` and
`total = round(subtotal + platformFee + tax)`, with no intermediate
rounding; at `basePrice = 100000`, `hourCount = 2` this gives
`subtotal = 200000`, `platformFee = 60000`, `tax = 28600`,
`total = 288600`. -/
theorem price_breakdown_formulas :
    (∀ (basePrice : ℚ) (hourCount : Nat),
      subtotal basePrice hourCount = basePrice * hourCount ∧
      platformFee basePrice hourCount = subtotal basePrice hourCount * 0.30 ∧
      tax basePrice hourCount =
        (subtotal basePrice hourCount + platformFee basePrice hourCount) * 0.11 ∧
      total basePrice hourCount =
        mathRound (subtotal basePrice hourCount + platformFee basePrice hourCount +
          tax basePrice hourCount)) ∧
    (subtotal 100000 2 = 200000 ∧ platformFee 100000 2 = 60000 ∧
      tax 100000 2 = 28600 ∧ total 100000 2 = 288600) := by
  refine ⟨fun basePrice hourCount => ⟨rfl, rfl, rfl, rfl⟩, ?_, ?_, ?_, ?_⟩
  · norm_num [subtotal]
  · norm_num [platformFee, subtotal]
  · norm_num [tax, subtotalWithPlatformFee, platformFee, subtotal]
  · norm_num [total, mathRound, tax, subtotalWithPlatformFee, platformFee, subtotal]

/-- Claim C6: the slot option generator returns exactly the whole hours of
`[requestedStart, requestedEnd)` that the availability resolver reports
available, in ascending order; with a Monday slot 09:00–17:00, no bookings
and requested window 10:00–13:00 on a Monday the options are
`[10:00, 11:00, 12:00]`. -/
theorem generateTimeOptions_spec :
    (∀ (env : Env) (bd : BookingDetails), env.bookingDetails = some bd →
      (generateTimeOptions env).Sorted (· < ·) ∧
      (∀ x, x ∈ generateTimeOptions env ↔
        bd.startTime ≤ x ∧ x < bd.endTime ∧ isSlotAvailable env bd.date x = true)) ∧
    generateTimeOptions envA = [10, 11, 12] := by
  refine ⟨fun env bd h => ⟨?_, fun x => ?_⟩, by decide⟩
  · rw [generateTimeOptions_eq env bd h]
    exact (pairwise_lt_hourRange _ _).filter _
  · rw [generateTimeOptions_eq env bd h, List.mem_filter, mem_hourRange]
    constructor
    · rintro ⟨⟨h1, h2⟩, h3⟩; exact ⟨h1, by omega, h3⟩
    · rintro ⟨h1, h2, h3⟩; exact ⟨⟨h1, by omega⟩, h3⟩

/-- Claim C6, witness: the theorem applied in the scenario A environment at
hour 10. -/
theorem generateTimeOptions_spec_witness :
    (generateTimeOptions envA).Sorted (· < ·) ∧
    (10 ∈ generateTimeOptions envA ↔
      bdTest.startTime ≤ 10 ∧ 10 < bdTest.endTime ∧
        isSlotAvailable envA bdTest.date 10 = true) :=
  ⟨(generateTimeOptions_spec.1 envA bdTest rfl).1,
   (generateTimeOptions_spec.1 envA bdTest rfl).2 10⟩

/-- Claim C7: the availability resolver fails closed — it returns `false`
(rather than throwing; the embedding is a total function) when the weekly
schedule is absent, when the weekday has no day schedule, when the day
schedule's slot list is missing, and when the booking details are absent. -/
theorem isSlotAvailable_fail_closed :
    (∀ (bd : Option BookingDetails) (bks : List Booking) (date : SimpleDate) (hour : Nat),
      isSlotAvailable ⟨bd, none, bks⟩ date hour = false) ∧
    (∀ (bdv : BookingDetails) (sched : ActiveSchedule) (bks : List Booking)
        (date : SimpleDate) (hour : Nat),
      List.lookup date.weekday sched = none →
      isSlotAvailable ⟨some bdv, some sched, bks⟩ date hour = false) ∧
    (∀ (bdv : BookingDetails) (sched : ActiveSchedule) (bks : List Booking)
        (date : SimpleDate) (hour : Nat),
      List.lookup date.weekday sched = some ⟨none⟩ →
      isSlotAvailable ⟨some bdv, some sched, bks⟩ date hour = false) ∧
    (∀ (sched : Option ActiveSchedule) (bks : List Booking) (date : SimpleDate) (hour : Nat),
      isSlotAvailable ⟨none, sched, bks⟩ date hour = false) := by
  refine ⟨?_, ?_, ?_, ?_⟩
  · intro bd bks date hour; cases bd <;> rfl
  · intro bdv sched bks date hour h; simp [isSlotAvailable, h]
  · intro bdv sched bks date hour h; simp [isSlotAvailable, h]
  · intro sched bks date hour; cases sched <;> rfl

/-- Claim C7, witness: the schedule object exists but has no weekday entry,
and the resolver answers `false`. -/
theorem isSlotAvailable_fail_closed_witness :
    isSlotAvailable ⟨some bdTest, some [], []⟩ monday 10 = false :=
  isSlotAvailable_fail_closed.2.1 bdTest [] [] monday 10 rfl

/-- Claim C8: when the gateway order id does not yield a numeric booking id
in its second dash-separated segment, the payment-success handler aborts
before any write — the store is returned untouched (no notification
inserted, no status change) and the contact-support notice is surfaced
instead of the success notice. -/
theorem payment_malformed_order_aborts (orderId : String) (db : Db)
    (h : parseBookingId orderId = none) :
    handlePaymentSuccess orderId db = (db, PaymentOutcome.contactSupport) := by
  unfold handlePaymentSuccess
  rw [h]

/-- Claim C8, witness: the order id `ORDER-xyz` has a non-numeric second
segment; the store with one `accepted` booking row is left untouched. -/
theorem payment_malformed_order_aborts_witness :
    handlePaymentSuccess "ORDER-xyz" dbTest = (dbTest, PaymentOutcome.contactSupport) :=
  payment_malformed_order_aborts "ORDER-xyz" dbTest (by decide)

/-- Claim C9: for fixed `basePrice ≥ 0` the computed total is non-decreasing
in the hour count. -/
theorem total_monotone_hourCount (basePrice : ℚ) (hc1 hc2 : Nat)
    (hb : 0 ≤ basePrice) (hn : hc1 ≤ hc2) :
    total basePrice hc1 ≤ total basePrice hc2 := by
  unfold total mathRound tax subtotalWithPlatformFee platformFee subtotal
  apply Int.floor_le_floor
  have hc : (hc1 : ℚ) ≤ (hc2 : ℚ) := by exact_mod_cast hn
  have key : basePrice * (hc1 : ℚ) ≤ basePrice * (hc2 : ℚ) :=
    mul_le_mul_of_nonneg_left hc hb
  have e3 : (0.30 : ℚ) = 3 / 10 := by norm_num
  have e1 : (0.11 : ℚ) = 11 / 100 := by norm_num
  rw [e3, e1]
  linarith [key]

/-- Claim C9, witness: monotonicity at `basePrice = 100000` from 2 to 3
hours. -/
theorem total_monotone_hourCount_witness :
    total 100000 2 ≤ total 100000 3 :=
  total_monotone_hourCount 100000 2 3 (by norm_num) (by norm_num)

/-- Claim C10: the initial `selectedHours` is exactly every whole hour of
`[startTime, endTime)` from the URL, with no availability filtering — in
particular the initial selection of the window 10:00–13:00 contains 11:00
even in an environment where 11:00 is unavailable. -/
theorem initSelectedHours_unfiltered :
    (∀ (startTime endTime h : Nat),
      h ∈ initSelectedHours startTime endTime ↔ startTime ≤ h ∧ h < endTime) ∧
    (11 ∈ initSelectedHours 10 13 ∧ isSlotAvailable envD monday 11 = false) := by
  refine ⟨fun s e h => ?_, by decide, by decide⟩
  rw [initSelectedHours, mem_hourRange]
  omega

end Liloapp
